import Mathlib

/-!
# AIRAGChat — verification of the ingestion / reindex / retrieval core

A shallow embedding of the AIRAGChat repository's logic-bearing surface.
Frontend code (`apps/frontend/src`) is embedded directly from the source;
the backend (ingestion job engine, queue/scheduler, reindex orchestrator,
retrieval engine) is not part of the shipped sources, so those operations
are modelled from the specification, with each such definition marked
`Modelled from the spec:` in its doc comment.

Numbers that are JavaScript doubles in the source are modelled as `ℚ`
together with an explicit non-finite marker; every division the code
performs is by 1024 (a power of two), which is exact on doubles in the
ranges the code reaches, so the rational model is faithful.
-/

namespace AIRAGChat

/-! ## `bytesToHuman` (frontend `api/dtos.ts`) -/

/-- A JavaScript number: either a finite value or one of the
non-finite values `NaN`, `+Infinity`, `-Infinity`. -/
inductive JsNum where
  | finite (q : ℚ)
  | nan
  | posInf
  | negInf
deriving DecidableEq

/-- JavaScript's `Number.isFinite`. -/
def JsNum.isFinite : JsNum → Bool
  | .finite _ => true
  | _ => false

/-- The test `x < 0` on a JavaScript number (comparisons with `NaN` are false;
`-Infinity < 0` is true). -/
def JsNum.isNeg : JsNum → Bool
  | .finite q => decide (q < 0)
  | .negInf => true
  | _ => false

/-- The `while (value >= 1024 && idx < units.length - 1)` loop of
`bytesToHuman`: repeatedly divide by 1024 and bump the unit index,
stopping below 1024 or at the last unit (`units.length - 1 = 3`). -/
def bytesLoop (value : ℚ) (idx : Nat) : ℚ × Nat :=
  if 1024 ≤ value ∧ idx < 3 then
    bytesLoop (value / 1024) (idx + 1)
  else
    (value, idx)
termination_by 3 - idx
decreasing_by omega

/-- JavaScript's `Number.prototype.toFixed(0)`: the integer nearest the value,
ties toward the larger integer. -/
def toFixed0 (q : ℚ) : Int := ⌊q + 1 / 2⌋

/-- JavaScript's `Number.prototype.toFixed(1)` rendered as `"i.d"`: scale by ten,
round ties up, then split off one decimal digit. -/
def toFixed1Str (q : ℚ) : String :=
  let n : Int := ⌊q * 10 + 1 / 2⌋
  toString (n / 10) ++ "." ++ toString (n % 10)

/-- The unit table `["B", "KB", "MB", "GB"]`. -/
def byteUnits : List String := ["B", "KB", "MB", "GB"]

/-- The function `bytesToHuman` from `apps/frontend/src/api/dtos.ts`:

```ts
if (!Number.isFinite(bytes) || bytes < 0) return "0 B";
const units = ["B", "KB", "MB", "GB"];
let value = bytes; let idx = 0;
while (value >= 1024 && idx < units.length - 1) { value /= 1024; idx += 1; }
return `${value.toFixed(idx === 0 ? 0 : 1)} ${units[idx]}`;
``` -/
def bytesToHuman (bytes : JsNum) : String :=
  if !bytes.isFinite || bytes.isNeg then "0 B"
  else
    match bytes with
    | .finite q =>
        let r := bytesLoop q 0
        (if r.2 = 0 then toString (toFixed0 r.1) else toFixed1Str r.1)
          ++ " " ++ byteUnits.getD r.2 "B"
    | _ => "0 B"

/-! ## `request` (frontend `api/client.ts`) -/

/-- The world a frontend `request` call runs against: the HTTP status
each successive `fetch` of this call would return, and whether
`useAuthStore.getState().refreshSession()` would succeed. -/
structure FetchEnv where
  /-- Status code returned by the n-th `fetch` issued by this call. -/
  fetch : Nat → Nat
  /-- Outcome of `refreshSession()` (true ⇒ a fresh access token was obtained). -/
  refreshOk : Bool

/-- JavaScript's `Response.ok`: status in the inclusive range 200–299. -/
def responseOk (status : Nat) : Bool := 200 ≤ status && status < 300

/-- Observable outcome of one `request` call: the settled value plus how
many `fetch`es and `refreshSession()` calls this call itself performed. -/
structure ReqTrace where
  result : Except String Nat
  fetchCount : Nat
  refreshCount : Nat

/-- The function `request` from `apps/frontend/src/api/client.ts`, with the network
abstracted into `FetchEnv`:

```ts
const response = await fetch(...);
const isAuthRefreshRequest = path === "/auth/refresh";
if (response.status === 401 && retryOn401 && !isAuthRefreshRequest) {
  const refreshed = await useAuthStore.getState().refreshSession();
  if (refreshed) return request<T>(path, init, false);
}
if (!response.ok) { ... throw new Error(detail); }
return ...;
```

`attemptIdx` numbers the `fetch`es so the environment can answer the
retry differently from the first attempt. -/
def request (env : FetchEnv) (path : String) (retryOn401 : Bool)
    (attemptIdx : Nat) : ReqTrace :=
  let status := env.fetch attemptIdx
  let isAuthRefreshRequest := path = "/auth/refresh"
  if status = 401 ∧ retryOn401 = true ∧ ¬ isAuthRefreshRequest then
    if env.refreshOk then
      let t := request env path false (attemptIdx + 1)
      { t with fetchCount := t.fetchCount + 1, refreshCount := t.refreshCount + 1 }
    else
      { result := .error "401 Unauthorized", fetchCount := 1, refreshCount := 1 }
  else if responseOk status then
    { result := .ok status, fetchCount := 1, refreshCount := 0 }
  else
    { result := .error (toString status), fetchCount := 1, refreshCount := 0 }
termination_by (if retryOn401 then 1 else 0)
decreasing_by simp_all

/-! ## Chunker (backend `rag` layer) -/

/-- Index of the last character of `l` satisfying `pred`, scanning from
offset `i`; `none` when no character matches. -/
def lastCharPos (pred : Char → Bool) : List Char → Nat → Option Nat
  | [], _ => none
  | c :: cs, i =>
      match lastCharPos pred cs (i + 1) with
      | some j => some j
      | none => if pred c then some i else none

/-- Index of the last adjacent `"\n\n"` pair of `l`, scanning from
offset `i`; `none` when the window holds no paragraph boundary. -/
def lastParaPos : List Char → Nat → Option Nat
  | c₁ :: c₂ :: cs, i =>
      match lastParaPos (c₂ :: cs) (i + 1) with
      | some j => some j
      | none => if c₁ = '\n' ∧ c₂ = '\n' then some i else none
  | _, _ => none

/-- Modelled from the spec: the Chunker's split-point choice inside one
size-budget window (backend `rag` chunking module, absent from the
shipped sources). Splits are attempted in priority order — paragraph
boundary (`"\n\n"`), then line boundary (`'\n'`), then sentence/space
boundary (`'.'` or `' '`), then a hard character split at the budget. -/
def chooseCut (window : List Char) : Nat :=
  match lastParaPos window 0 with
  | some i => i + 2
  | none =>
      match lastCharPos (fun c => c = '\n') window 0 with
      | some i => i + 1
      | none =>
          match lastCharPos (fun c => c = '.' || c = ' ') window 0 with
          | some i => i + 1
          | none => window.length

/-- Modelled from the spec: the Chunker's accumulation loop (backend
`rag` chunking module, absent from the shipped sources). Spans are
accumulated until the size budget is met, then the next chunk's start
backs up by the overlap amount; output is the ordered `(index, text)`
sequence. The cut and the advance are clamped to at least one character
so the loop always makes progress. -/
def chunkLoop (text : List Char) (size overlap : Nat) (idx : Nat) :
    List (Nat × String) :=
  if h : text = [] then []
  else if text.length ≤ size then [(idx, String.mk text)]
  else
    let window := text.take size
    let cut := max 1 (chooseCut window)
    let advance := max 1 (cut - overlap)
    (idx, String.mk (text.take cut)) ::
      chunkLoop (text.drop advance) size overlap (idx + 1)
termination_by text.length
decreasing_by
  simp only [List.length_drop]
  omega

/-- A deterministic 64-bit string hash (stands in for the backend's
content hash; any pure function of the string gives the same theorems). -/
def hashString (s : String) : Nat :=
  s.data.foldl (fun a c => (a * 31 + c.toNat) % 2 ^ 64) 7

/-- Modelled from the spec: `chunk_id` is a deterministic hash of
`(document_id, chunk_index, chunk_text)`. -/
def chunkId (docId : String) (idx : Nat) (text : String) : Nat :=
  hashString (docId ++ "|" ++ toString idx ++ "|" ++ text)

/-- Modelled from the spec: the Chunker's entry point — split normalized
plain text under a target chunk size and overlap into the ordered
`(index, text)` sequence. -/
def chunkDocument (text : String) (size overlap : Nat) :
    List (Nat × String) :=
  chunkLoop text.data size overlap 0

/-- The chunk-id sequence derived from a chunk sequence for a document. -/
def chunkIdsOf (docId : String) (chunks : List (Nat × String)) : List Nat :=
  chunks.map fun c => chunkId docId c.1 c.2

/-! ## Vector index store (backend, Qdrant-backed) -/

/-- A vector-store point: `{document_id, chunk_id, chunk_index,
text_snippet, embedding_profile_id}` plus the project payload used for
retrieval filtering and the embedding vector itself. -/
structure Point where
  document_id : String
  chunk_id : Nat
  chunk_index : Nat
  text_snippet : String
  project_id : String
  vector : List ℚ
deriving DecidableEq

/-- Modelled from the spec: the Vector Index Store (backend, absent from
the shipped sources) — named physical collections of points and one
named alias that always resolves to exactly one physical collection. -/
structure VectorStore where
  collections : String → List Point
  aliasTarget : String

/-- Modelled from the spec: upsert points into one named physical
collection; the alias is untouched. -/
def upsert (vs : VectorStore) (coll : String) (pts : List Point) :
    VectorStore :=
  { vs with
    collections := fun c =>
      if c = coll then pts ++ vs.collections c else vs.collections c }

/-- Dot-product similarity of two vectors. -/
def dot (v w : List ℚ) : ℚ := (List.zipWith (· * ·) v w).sum

/-- Score of a stored point against a query vector. -/
def scoreOf (qv : List ℚ) (p : Point) : ℚ := dot qv p.vector

/-- Insert a point into a list kept in descending score order. -/
def insertByScore (qv : List ℚ) (p : Point) : List Point → List Point
  | [] => [p]
  | x :: xs =>
      if scoreOf qv x ≤ scoreOf qv p then p :: x :: xs
      else x :: insertByScore qv p xs

/-- Rank points by descending score (insertion sort). -/
def rankByScore (qv : List ℚ) : List Point → List Point
  | [] => []
  | x :: xs => insertByScore qv x (rankByScore qv xs)

/-- Modelled from the spec: similarity search over one physical
collection with a payload filter by project and a top-k cut. -/
def searchCollection (pts : List Point) (qv : List ℚ) (projectId : String)
    (k : Nat) : List Point :=
  (rankByScore qv (pts.filter fun p => p.project_id = projectId)).take k

/-- Modelled from the spec: retrieval always resolves the alias at query
time, never a hard-coded collection name. -/
def searchAlias (vs : VectorStore) (qv : List ℚ) (projectId : String)
    (k : Nat) : List Point :=
  searchCollection (vs.collections vs.aliasTarget) qv projectId k

/-! ## Embedding profiles and reindex runs (backend) -/

/-- The status field `EmbeddingProfile.status ∈ {draft, validated, active, retired}`. -/
inductive ProfileStatus where
  | draft
  | validated
  | active
  | retired
deriving DecidableEq

/-- The slice of an EmbeddingProfile the reindex protocol touches. -/
structure EmbeddingProfile where
  id : String
  status : ProfileStatus
  qdrant_collection_name : String
deriving DecidableEq

/-- Per-document reindex item status; terminal means succeeded, failed
or explicitly skipped. -/
inductive ItemStatus where
  | pending
  | running
  | succeeded
  | failed
  | skipped
deriving DecidableEq

/-- Whether a ReindexRunItem status is terminal. -/
def ItemStatus.isTerminal : ItemStatus → Bool
  | .succeeded | .failed | .skipped => true
  | _ => false

/-- One ReindexRunItem row: per-document status, catch-up flag. -/
structure ReindexRunItem where
  document_id : String
  status : ItemStatus
  needs_catchup : Bool
deriving DecidableEq

/-- The status field `ReindexRun.status ∈ {queued, running, catchup_pending,
catchup_running, apply_ready, applied, failed, cancelled}`. -/
inductive RunStatus where
  | queued
  | running
  | catchup_pending
  | catchup_running
  | apply_ready
  | applied
  | failed
  | cancelled
deriving DecidableEq

/-- The slice of a ReindexRun the apply/cancel protocol touches. -/
structure ReindexRun where
  status : RunStatus
  items : List ReindexRunItem
  source_embedding_profile_id : Option String
  target_embedding_profile_id : String
  qdrant_staging_collection : String
deriving DecidableEq

/-- The apply-readiness condition on items: every ReindexRunItem is
terminal and `needs_catchup = false`. -/
def itemsApplyReady (items : List ReindexRunItem) : Bool :=
  items.all fun it => it.status.isTerminal && !it.needs_catchup

/-- Modelled from the spec: the orchestrator keeps the run's stored
status in step with its items — `apply_ready` exactly when every item is
terminal with no outstanding catch-up (spec §4.6 steps 3–6). -/
def statusFaithful (run : ReindexRun) : Prop :=
  run.status = .apply_ready ↔ itemsApplyReady run.items = true

/-- The reindex-relevant system state: the vector store, the embedding
profiles, and the run under consideration. -/
structure ReindexSys where
  vs : VectorStore
  profiles : List EmbeddingProfile
  run : ReindexRun

/-- Rejection reason for an apply request outside `apply_ready`. -/
inductive ApplyError where
  | notReady
deriving DecidableEq

/-- Modelled from the spec: Apply (backend, absent from the shipped
sources) — only permitted when the run status is `apply_ready`; performs
the atomic alias repoint to the staging collection, marks the target
profile `active` and the previous active one `retired`, and marks the
run `applied`. Any other state is rejected. -/
def applyRun (s : ReindexSys) : Except ApplyError ReindexSys :=
  if s.run.status = .apply_ready then
    .ok
      { vs := { s.vs with aliasTarget := s.run.qdrant_staging_collection },
        profiles := s.profiles.map fun p =>
          if p.id = s.run.target_embedding_profile_id then
            { p with status := .active }
          else if p.status = .active then
            { p with status := .retired }
          else p,
        run := { s.run with status := .applied } }
  else
    .error .notReady

/-- Rejection reason for a cancel request after apply. -/
inductive CancelError where
  | alreadyApplied
deriving DecidableEq

/-- Modelled from the spec: Cancel (backend, absent from the shipped
sources) — permitted any time before apply; marks the run `cancelled`,
leaves the staging collection orphaned in place, and never touches the
live alias. -/
def cancelRun (s : ReindexSys) : Except CancelError ReindexSys :=
  if s.run.status = .applied then .error .alreadyApplied
  else .ok { s with run := { s.run with status := .cancelled } }

/-! ## Ingestion job engine and queue/scheduler (backend) -/

/-- The status field `ProcessingJob.status ∈ {queued, dispatched, running, succeeded,
failed}`. -/
inductive JobStatus where
  | queued
  | dispatched
  | running
  | succeeded
  | failed
deriving DecidableEq

/-- Whether a ProcessingJob status is terminal. -/
def JobStatus.isTerminal : JobStatus → Bool
  | .succeeded | .failed => true
  | _ => false

/-- The slice of a ProcessingJob the exclusion invariant touches. -/
structure ProcessingJob where
  id : Nat
  document_id : String
  status : JobStatus
deriving DecidableEq

/-- The persisted job table plus the id counter. -/
structure QueueSt where
  jobs : List ProcessingJob
  nextId : Nat
deriving DecidableEq

/-- Whether some job for `doc` is in a non-terminal status. -/
def activeFor (doc : String) (j : ProcessingJob) : Bool :=
  j.document_id = doc && !j.status.isTerminal

/-- Whether the table holds an active (non-terminal) job for `doc`. -/
def hasActiveJob (s : QueueSt) (doc : String) : Bool :=
  s.jobs.any (activeFor doc)

/-- How many jobs targeting `doc` are in a non-terminal status. -/
def activeCount (s : QueueSt) (doc : String) : Nat :=
  s.jobs.countP (activeFor doc)

/-- The document-level mutual-exclusion invariant: at most one
non-terminal ProcessingJob per document. -/
def docExclusive (s : QueueSt) : Prop :=
  ∀ doc, activeCount s doc ≤ 1

/-- Modelled from the spec: enqueue a job for a document (upload-time
`ingest` or reprocess); a document with an active job is rejected —
never given a second concurrent job. -/
def enqueueJob (s : QueueSt) (doc : String) : QueueSt :=
  if hasActiveJob s doc then s
  else
    { jobs := s.jobs ++ [{ id := s.nextId, document_id := doc, status := .queued }],
      nextId := s.nextId + 1 }

/-- Modelled from the spec: a guarded status transition — the job moves
`src → dst` only when it currently holds `src` (the transition-table
discipline of spec §9). -/
def transitionJob (s : QueueSt) (jid : Nat) (src dst : JobStatus) : QueueSt :=
  { s with
    jobs := s.jobs.map fun j =>
      if j.id = jid ∧ j.status = src then { j with status := dst } else j }

/-- Whether a job other than `jid` is active for `doc` — the
transactional re-check dispatch performs. -/
def hasOtherActive (s : QueueSt) (jid : Nat) (doc : String) : Bool :=
  s.jobs.any fun j => j.id ≠ jid && j.document_id = doc && !j.status.isTerminal

/-- Modelled from the spec: dispatch converts `queued → dispatched` and
must never dispatch a job whose document already has another active job;
the exclusion is re-checked here at dispatch time, not only at enqueue
time. A conflicting or missing job leaves the state unchanged
(`ConcurrencyConflict` rejection). -/
def dispatchJob (s : QueueSt) (jid : Nat) : QueueSt :=
  match s.jobs.find? (fun j => j.id = jid && j.status = .queued) with
  | some j =>
      if hasOtherActive s jid j.document_id then s
      else transitionJob s jid .queued .dispatched
  | none => s

/-- Modelled from the spec: the daily sweep / manual "dispatch now" —
dispatch every currently queued job. -/
def dispatchAllQueued (s : QueueSt) : QueueSt :=
  { s with
    jobs := s.jobs.map fun j =>
      if j.status = .queued then { j with status := .dispatched } else j }

/-- One step of the job engine / scheduler. -/
inductive QStep : QueueSt → QueueSt → Prop where
  | enqueue (s : QueueSt) (doc : String) : QStep s (enqueueJob s doc)
  | dispatch (s : QueueSt) (jid : Nat) : QStep s (dispatchJob s jid)
  | sweep (s : QueueSt) : QStep s (dispatchAllQueued s)
  | start (s : QueueSt) (jid : Nat) :
      QStep s (transitionJob s jid .dispatched .running)
  | succeed (s : QueueSt) (jid : Nat) :
      QStep s (transitionJob s jid .running .succeeded)
  | fail (s : QueueSt) (jid : Nat) :
      QStep s (transitionJob s jid .running .failed)

/-- The states reachable from the empty job table. -/
inductive QReach : QueueSt → Prop where
  | init : QReach ⟨[], 0⟩
  | step {s s' : QueueSt} : QReach s → QStep s s' → QReach s'

/-- The reprocess response: `{document_id, job_id, already_queued}`
(mirrors the frontend's `ReprocessResp` DTO). -/
structure ReprocessResp where
  document_id : String
  job_id : Nat
  already_queued : Bool
deriving DecidableEq

/-- Modelled from the spec: `reprocess(document_id)` (backend, absent
from the shipped sources) — when an active job already exists the
request is answered on the success path with `already_queued = true` and
no second job is created; otherwise a fresh job is enqueued. -/
def reprocess (s : QueueSt) (doc : String) :
    Except String (QueueSt × ReprocessResp) :=
  if hasActiveJob s doc then
    .ok (s,
      { document_id := doc,
        job_id := ((s.jobs.find? (activeFor doc)).map (·.id)).getD 0,
        already_queued := true })
  else
    .ok (enqueueJob s doc,
      { document_id := doc, job_id := s.nextId, already_queued := false })

/-! ## Scheduler restart (backend) -/

/-- The scheduler's persisted bookkeeping (mirrors the frontend's
`QueueState` DTO: `last_midnight_run_local_date`,
`missed_run_detected`). Dates are local-day ordinals. -/
structure SchedulerSt where
  lastMidnightRunLocalDate : Option Nat
deriving DecidableEq

/-- Modelled from the spec: the missed-window test — the configured
daily run window elapsed (the last recorded run day precedes today, or
no run was ever recorded). -/
def missedRunDetected (sched : SchedulerSt) (today : Nat) : Bool :=
  match sched.lastMidnightRunLocalDate with
  | none => true
  | some d => d < today

/-- Modelled from the spec: on process restart the scheduler detects a
missed daily run window and dispatches all currently queued jobs instead
of waiting for the next scheduled time. -/
def schedulerRestart (q : QueueSt) (sched : SchedulerSt) (today : Nat) :
    QueueSt × SchedulerSt :=
  if missedRunDetected sched today then
    (dispatchAllQueued q, { lastMidnightRunLocalDate := some today })
  else
    (q, sched)

/-! ## Retrieval engine (backend) -/

/-- The guardrail policy: `strict_rag_only` or
`hybrid_with_disclaimer`. -/
inductive RagPolicy where
  | strict_rag_only
  | hybrid_with_disclaimer
deriving DecidableEq

/-- A literal citation `(chunk id, filename, snippet, score)`. -/
structure Citation where
  chunk_id : Nat
  filename : String
  snippet : String
  score : ℚ
deriving DecidableEq

/-- The `ask` answer: answer text, citations, and the answer mode
(mirrors the frontend's `ChatAskResponse.answer_mode`). -/
structure AskResponse where
  answer : String
  citations : List Citation
  answer_mode : String
deriving DecidableEq

/-- Retrieval configuration: guardrail policy, minimum-similarity
threshold, top-k. -/
structure RagConfig where
  policy : RagPolicy
  threshold : ℚ
  topK : Nat

/-- The retrieved context meets the minimum-similarity/coverage
threshold: some retrieved hit scores at or above it. -/
def contextSufficient (cfg : RagConfig) (qv : List ℚ)
    (hits : List Point) : Bool :=
  hits.any fun p => decide (cfg.threshold ≤ scoreOf qv p)

/-- The refusal answer returned instead of an ungrounded answer. -/
def refusalAnswer : String :=
  "Not enough grounded context in the project documents to answer."

/-- The citation assembled from one retrieved point. -/
def citationOf (qv : List ℚ) (filenameOf : String → String) (p : Point) :
    Citation :=
  { chunk_id := p.chunk_id,
    filename := filenameOf p.document_id,
    snippet := p.text_snippet,
    score := scoreOf qv p }

/-- Modelled from the spec: `ask` (backend, absent from the shipped
sources) — search the aliased collection filtered to the project, apply
the sufficiency threshold; under `strict_rag_only` with insufficient
context return a refusal with no citations as a first-class success,
otherwise return the generated answer with the literal citations of the
retrieved chunks. `generate` stands for the inference provider and
`filenameOf` for the document-metadata lookup. -/
def ask (vs : VectorStore) (cfg : RagConfig) (qv : List ℚ)
    (projectId : String) (generate : List Point → String)
    (filenameOf : String → String) : Except String AskResponse :=
  if cfg.policy = .strict_rag_only ∧
      contextSufficient cfg qv (searchAlias vs qv projectId cfg.topK) = false
  then
    .ok { answer := refusalAnswer, citations := [], answer_mode := "refusal" }
  else
    .ok
      { answer := generate (searchAlias vs qv projectId cfg.topK),
        citations :=
          (searchAlias vs qv projectId cfg.topK).map (citationOf qv filenameOf),
        answer_mode := "grounded" }

/-! ## Helper lemmas -/

lemma bytesLoop_of_lt (value : ℚ) (idx : Nat) (h : value < 1024) :
    bytesLoop value idx = (value, idx) := by
  have h' : ¬(1024 ≤ value ∧ idx < 3) := fun hc => absurd hc.1 (not_le.mpr h)
  rw [bytesLoop, if_neg h']

lemma bytesLoop_snd_le (value : ℚ) (idx : Nat) (h : idx ≤ 3) :
    (bytesLoop value idx).2 ≤ 3 := by
  by_cases hc : 1024 ≤ value ∧ idx < 3
  · rw [bytesLoop, if_pos hc]
    exact bytesLoop_snd_le (value / 1024) (idx + 1) (by omega)
  · rw [bytesLoop, if_neg hc]
    exact h
termination_by 3 - idx
decreasing_by exact Nat.sub_succ_lt_self _ _ hc.2

lemma bytesLoop_snd_eq_three (q : ℚ) (h : (1024 : ℚ) ^ 4 ≤ q) :
    (bytesLoop q 0).2 = 3 := by
  have h1024 : (0 : ℚ) < 1024 := by norm_num
  have h0 : (1024 : ℚ) ≤ q := le_trans (by norm_num) h
  have h1 : (1024 : ℚ) ≤ q / 1024 := by
    rw [le_div_iff₀ h1024]
    exact le_trans (by norm_num) h
  have h2 : (1024 : ℚ) ≤ q / 1024 / 1024 := by
    rw [le_div_iff₀ h1024, le_div_iff₀ h1024]
    exact le_trans (by norm_num) h
  rw [bytesLoop, if_pos ⟨h0, by norm_num⟩,
      bytesLoop, if_pos ⟨h1, by norm_num⟩,
      bytesLoop, if_pos ⟨h2, by norm_num⟩,
      bytesLoop, if_neg (fun hc => absurd hc.2 (lt_irrefl 3))]

lemma bytesToHuman_finite_nonneg (q : ℚ) (h0 : 0 ≤ q) :
    bytesToHuman (.finite q) =
      (if (bytesLoop q 0).2 = 0 then toString (toFixed0 (bytesLoop q 0).1)
        else toFixed1Str (bytesLoop q 0).1)
        ++ " " ++ byteUnits.getD (bytesLoop q 0).2 "B" := by
  simp [bytesToHuman, JsNum.isFinite, JsNum.isNeg,
    decide_eq_false (not_lt.mpr h0)]

/-! ## Claim theorems -/

/-- C10: `bytesToHuman` is total: every negative or non-finite input
yields `"0 B"`; every finite input in `[0, 1024)` is rendered with zero
decimals and unit `B`; every finite non-negative input gets a unit among
B/KB/MB/GB; and one tebibyte or more is still reported in GB (at most
three divisions by 1024). -/
theorem bytesToHuman_total_spec :
    (∀ b : JsNum, b.isFinite = false ∨ b.isNeg = true →
      bytesToHuman b = "0 B")
    ∧ (∀ q : ℚ, 0 ≤ q → q < 1024 →
      bytesToHuman (.finite q) = toString (toFixed0 q) ++ " " ++ "B")
    ∧ (∀ q : ℚ, 0 ≤ q → ∃ u ∈ byteUnits, ∃ pre,
      bytesToHuman (.finite q) = pre ++ " " ++ u)
    ∧ (∀ q : ℚ, (1024 : ℚ) ^ 4 ≤ q → ∃ pre,
      bytesToHuman (.finite q) = pre ++ " " ++ "GB") := by
  refine ⟨?_, ?_, ?_, ?_⟩
  · intro b hb
    cases b with
    | finite q =>
        rcases hb with h | h
        · simp [JsNum.isFinite] at h
        · simp [bytesToHuman, JsNum.isFinite, JsNum.isNeg] at h ⊢
          simp [h]
    | nan => rfl
    | posInf => rfl
    | negInf => rfl
  · intro q h0 h1
    rw [bytesToHuman_finite_nonneg q h0, bytesLoop_of_lt q 0 h1]
    rfl
  · intro q h0
    have hle := bytesLoop_snd_le q 0 (by norm_num)
    refine ⟨byteUnits.getD (bytesLoop q 0).2 "B", ?_,
      (if (bytesLoop q 0).2 = 0 then toString (toFixed0 (bytesLoop q 0).1)
        else toFixed1Str (bytesLoop q 0).1),
      bytesToHuman_finite_nonneg q h0⟩
    set n := (bytesLoop q 0).2 with hn
    interval_cases n <;> decide
  · intro q h
    have h0 : (0 : ℚ) ≤ q := le_trans (by norm_num) h
    rw [bytesToHuman_finite_nonneg q h0, bytesLoop_snd_eq_three q h]
    exact ⟨toFixed1Str (bytesLoop q 0).1, rfl⟩

/-- Witness for C10 at concrete inputs: `NaN`, `512`, and one
tebibyte. -/
theorem bytesToHuman_total_spec_witness :
    bytesToHuman .nan = "0 B"
    ∧ bytesToHuman (.finite 512) = toString (toFixed0 512) ++ " " ++ "B"
    ∧ ∃ pre, bytesToHuman (.finite ((1024 : ℚ) ^ 4)) = pre ++ " " ++ "GB" :=
  ⟨bytesToHuman_total_spec.1 .nan (Or.inl rfl),
   bytesToHuman_total_spec.2.1 512 (by norm_num) (by norm_num),
   bytesToHuman_total_spec.2.2.2 ((1024 : ℚ) ^ 4) (by norm_num)⟩

lemma request_noRetry_eq (env : FetchEnv) (path : String) (i : Nat) :
    request env path false i =
      if responseOk (env.fetch i) then
        { result := .ok (env.fetch i), fetchCount := 1, refreshCount := 0 }
      else
        { result := .error (toString (env.fetch i)), fetchCount := 1,
          refreshCount := 0 } := by
  rw [request]
  simp

/-- C9: for any path other than `/auth/refresh`, `request` refreshes and
retries at most once after a 401: at most two fetches and one refresh per
call, the retry runs with `retryOn401 = false`, and a second 401 settles
as an error instead of refreshing again. -/
theorem request_single_refresh_retry (env : FetchEnv) (path : String)
    (hpath : path ≠ "/auth/refresh") :
    (request env path true 0).fetchCount ≤ 2
    ∧ (request env path true 0).refreshCount ≤ 1
    ∧ (env.fetch 0 = 401 → env.refreshOk = true →
        (request env path true 0).result = (request env path false 1).result)
    ∧ (env.fetch 0 = 401 → env.refreshOk = true → env.fetch 1 = 401 →
        (request env path true 0).result = .error (toString 401)) := by
  have hstep : request env path true 0 =
      if env.fetch 0 = 401 ∧ true = true ∧ ¬ path = "/auth/refresh" then
        if env.refreshOk then
          { request env path false 1 with
              fetchCount := (request env path false 1).fetchCount + 1,
              refreshCount := (request env path false 1).refreshCount + 1 }
        else
          { result := .error "401 Unauthorized", fetchCount := 1,
            refreshCount := 1 }
      else if responseOk (env.fetch 0) then
        { result := .ok (env.fetch 0), fetchCount := 1, refreshCount := 0 }
      else
        { result := .error (toString (env.fetch 0)), fetchCount := 1,
          refreshCount := 0 } := by
    rw [request]
  by_cases h401 : env.fetch 0 = 401
  · rw [if_pos ⟨h401, rfl, hpath⟩] at hstep
    cases hrf : env.refreshOk with
    | false =>
        rw [if_neg (by simp [hrf])] at hstep
        refine ⟨by simp [hstep], by simp [hstep], ?_, ?_⟩
        · intro _ h; simp at h
        · intro _ h _; simp at h
    | true =>
        rw [if_pos hrf] at hstep
        rw [request_noRetry_eq] at hstep
        cases hok : responseOk (env.fetch 1) with
        | false =>
            rw [if_neg (by simp [hok])] at hstep
            refine ⟨by rw [hstep], by rw [hstep], ?_, ?_⟩
            · intro _ _
              rw [hstep, request_noRetry_eq, if_neg (by simp [hok])]
            · intro _ _ h1
              rw [hstep, h1]
        | true =>
            rw [if_pos hok] at hstep
            refine ⟨by rw [hstep], by rw [hstep], ?_, ?_⟩
            · intro _ _
              rw [hstep, request_noRetry_eq, if_pos hok]
            · intro _ _ h1
              rw [h1] at hok
              simp [responseOk] at hok
  · rw [if_neg (fun hc => h401 hc.1)] at hstep
    have hres : (request env path true 0).fetchCount = 1
        ∧ (request env path true 0).refreshCount = 0 := by
      cases hok : responseOk (env.fetch 0) with
      | false => rw [if_neg (by simp [hok])] at hstep; simp [hstep]
      | true => rw [if_pos hok] at hstep; simp [hstep]
    refine ⟨by omega, by omega, ?_, ?_⟩
    · intro h; exact absurd h h401
    · intro h; exact absurd h h401

/-- Witness for C9: both fetches answer 401 and the refresh succeeds —
two fetches, one refresh, and a settled error. -/
theorem request_single_refresh_retry_witness :
    ({ fetch := fun _ => 401, refreshOk := true : FetchEnv}.fetch 0 = 401
      → True)
    ∧ (request { fetch := fun _ => 401, refreshOk := true } "/chat/ask"
        true 0).fetchCount ≤ 2
    ∧ (request { fetch := fun _ => 401, refreshOk := true } "/chat/ask"
        true 0).result = .error (toString 401) :=
  ⟨fun _ => trivial,
   (request_single_refresh_retry { fetch := fun _ => 401, refreshOk := true }
      "/chat/ask" (by decide)).1,
   (request_single_refresh_retry { fetch := fun _ => 401, refreshOk := true }
      "/chat/ask" (by decide)).2.2.2 rfl rfl rfl⟩

/-- C4: chunking is a deterministic function of its inputs — two runs of
the chunker on the same text and parameters yield identical ordered
`(index, text)` sequences and hence identical chunk-id sequences. -/
theorem chunking_deterministic (docId text : String) (size overlap : Nat)
    (r₁ r₂ : List (Nat × String))
    (h₁ : r₁ = chunkDocument text size overlap)
    (h₂ : r₂ = chunkDocument text size overlap) :
    r₁ = r₂ ∧ chunkIdsOf docId r₁ = chunkIdsOf docId r₂ := by
  subst h₁
  subst h₂
  exact ⟨rfl, rfl⟩

/-- Witness for C4: two runs over a three-paragraph document at chunk
size 200 / overlap 50. -/
theorem chunking_deterministic_witness :
    chunkDocument "p1 text.\n\np2 text.\n\np3 text." 200 50 =
      chunkDocument "p1 text.\n\np2 text.\n\np3 text." 200 50
    ∧ chunkIdsOf "spec.pdf"
        (chunkDocument "p1 text.\n\np2 text.\n\np3 text." 200 50) =
      chunkIdsOf "spec.pdf"
        (chunkDocument "p1 text.\n\np2 text.\n\np3 text." 200 50) :=
  chunking_deterministic "spec.pdf" "p1 text.\n\np2 text.\n\np3 text." 200 50
    _ _ rfl rfl

lemma itemsApplyReady_iff (items : List ReindexRunItem) :
    itemsApplyReady items = true ↔
      ∀ it ∈ items, it.status.isTerminal = true ∧ it.needs_catchup = false := by
  unfold itemsApplyReady
  rw [List.all_eq_true]
  constructor
  · intro h it hit
    have hx := h it hit
    simp only [Bool.and_eq_true, Bool.not_eq_true'] at hx
    exact hx
  · intro h it hit
    obtain ⟨h1, h2⟩ := h it hit
    simp [h1, h2]

/-- An example reindex run in `apply_ready` state with one succeeded,
caught-up item. -/
def exRun : ReindexRun :=
  { status := .apply_ready,
    items := [{ document_id := "doc-1", status := .succeeded,
                needs_catchup := false }],
    source_embedding_profile_id := some "prof-old",
    target_embedding_profile_id := "prof-new",
    qdrant_staging_collection := "coll_new" }

/-- An example system: the alias serves `coll_old` owned by the active
profile `prof-old` while `exRun` staged `coll_new`. -/
def exSys : ReindexSys :=
  { vs := { collections := fun _ => [], aliasTarget := "coll_old" },
    profiles := [{ id := "prof-old", status := .active,
                   qdrant_collection_name := "coll_old" }],
    run := exRun }

/-- The state `exSys` reaches after a successful apply. -/
def exSysApplied : ReindexSys :=
  { vs := { collections := fun _ => [], aliasTarget := "coll_new" },
    profiles := [{ id := "prof-old", status := .retired,
                   qdrant_collection_name := "coll_old" }],
    run := { exRun with status := .applied } }

/-- C1: an apply request succeeds exactly when the run is `apply_ready`,
i.e. every ReindexRunItem is terminal with `needs_catchup = false`; any
other state is rejected with `notReady`. -/
theorem apply_permitted_iff_apply_ready (s : ReindexSys)
    (hf : statusFaithful s.run) :
    ((∃ s', applyRun s = .ok s') ↔
      ∀ it ∈ s.run.items,
        it.status.isTerminal = true ∧ it.needs_catchup = false)
    ∧ (s.run.status ≠ .apply_ready → applyRun s = .error .notReady) := by
  refine ⟨?_, fun hne => by rw [applyRun, if_neg hne]⟩
  unfold statusFaithful at hf
  rw [← itemsApplyReady_iff, ← hf]
  constructor
  · rintro ⟨s', hs'⟩
    by_contra hne
    rw [applyRun, if_neg hne] at hs'
    exact Except.noConfusion hs'
  · intro h
    exact ⟨_, by rw [applyRun, if_pos h]⟩

/-- Witness for C1 at `exSys`, whose run is `apply_ready` with every
item terminal and caught up. -/
theorem apply_permitted_iff_apply_ready_witness :
    (∃ s', applyRun exSys = .ok s') ↔
      ∀ it ∈ exSys.run.items,
        it.status.isTerminal = true ∧ it.needs_catchup = false :=
  (apply_permitted_iff_apply_ready exSys
    (Iff.intro (fun _ => rfl) (fun _ => rfl))).1

/-- C2: after apply the alias resolves to the run's staging collection
and the previously active profile is retired; before apply, a search
through the alias is unchanged by any upsert into the staging
collection. -/
theorem apply_repoints_alias_and_staging_invisible (s s' : ReindexSys)
    (happly : applyRun s = .ok s') :
    s'.vs.aliasTarget = s.run.qdrant_staging_collection
    ∧ (∀ p ∈ s.profiles, p.status = .active →
        p.id ≠ s.run.target_embedding_profile_id →
        { p with status := ProfileStatus.retired } ∈ s'.profiles)
    ∧ (∀ pts qv proj k,
        s.run.qdrant_staging_collection ≠ s.vs.aliasTarget →
        searchAlias (upsert s.vs s.run.qdrant_staging_collection pts)
            qv proj k
          = searchAlias s.vs qv proj k) := by
  rw [applyRun] at happly
  by_cases h : s.run.status = .apply_ready
  · rw [if_pos h] at happly
    cases happly
    refine ⟨rfl, ?_, ?_⟩
    · intro p hp hact hne
      refine List.mem_map.mpr ⟨p, hp, ?_⟩
      rw [if_neg hne, if_pos hact]
    · intro pts qv proj k hne
      unfold searchAlias upsert
      simp only []
      rw [if_neg (fun hc => hne hc.symm)]
  · rw [if_neg h] at happly
    exact Except.noConfusion happly

/-- Witness for C2: applying `exSys` repoints the alias to `coll_new`
and retires `prof-old`, and pre-apply staging writes are invisible. -/
theorem apply_repoints_alias_and_staging_invisible_witness :
    exSysApplied.vs.aliasTarget = exSys.run.qdrant_staging_collection
    ∧ (∀ p ∈ exSys.profiles, p.status = .active →
        p.id ≠ exSys.run.target_embedding_profile_id →
        { p with status := ProfileStatus.retired } ∈ exSysApplied.profiles)
    ∧ (∀ pts qv proj k,
        exSys.run.qdrant_staging_collection ≠ exSys.vs.aliasTarget →
        searchAlias (upsert exSys.vs exSys.run.qdrant_staging_collection pts)
            qv proj k
          = searchAlias exSys.vs qv proj k) :=
  apply_repoints_alias_and_staging_invisible exSys exSysApplied rfl

/-- C6: cancel succeeds in every state reached before apply (including
`apply_ready`), marks the run `cancelled`, leaves the staging collection
in place, and never touches the live alias. -/
theorem cancel_any_time_before_apply (s : ReindexSys)
    (h : s.run.status ≠ .applied) :
    ∃ s', cancelRun s = .ok s'
      ∧ s'.run.status = .cancelled
      ∧ s'.vs.collections s.run.qdrant_staging_collection
          = s.vs.collections s.run.qdrant_staging_collection
      ∧ s'.vs.aliasTarget = s.vs.aliasTarget :=
  ⟨{ s with run := { s.run with status := .cancelled } },
    by rw [cancelRun, if_neg h], rfl, rfl, rfl⟩

/-- Witness for C6: cancelling `exSys`, whose run is in the pre-apply
state `apply_ready`. -/
theorem cancel_any_time_before_apply_witness :
    ∃ s', cancelRun exSys = .ok s'
      ∧ s'.run.status = .cancelled
      ∧ s'.vs.collections exSys.run.qdrant_staging_collection
          = exSys.vs.collections exSys.run.qdrant_staging_collection
      ∧ s'.vs.aliasTarget = exSys.vs.aliasTarget :=
  cancel_any_time_before_apply exSys (by decide)

/-- An example queue whose only job for `doc-1` is running. -/
def exQueueActive : QueueSt :=
  { jobs := [{ id := 7, document_id := "doc-1", status := .running }],
    nextId := 8 }

/-- C5: a reprocess request for a document with an active job is
answered on the success path with `already_queued = true` and the job
table unchanged — no second concurrent job, and no error. -/
theorem reprocess_already_queued (s : QueueSt) (doc : String)
    (h : hasActiveJob s doc = true) :
    ∃ resp, reprocess s doc = .ok (s, resp)
      ∧ resp.already_queued = true :=
  ⟨{ document_id := doc,
     job_id := ((s.jobs.find? (activeFor doc)).map (·.id)).getD 0,
     already_queued := true },
   by rw [reprocess, if_pos h], rfl⟩

/-- Witness for C5: reprocessing `doc-1` while its job is running. -/
theorem reprocess_already_queued_witness :
    ∃ resp, reprocess exQueueActive "doc-1" = .ok (exQueueActive, resp)
      ∧ resp.already_queued = true :=
  reprocess_already_queued exQueueActive "doc-1" (by decide)

/-- C7: under the strict policy, a query whose retrieved context misses
the sufficiency threshold is answered with the refusal text, no
citations, and a successful (`ok`) result. -/
theorem ask_strict_insufficient_refuses (vs : VectorStore) (cfg : RagConfig)
    (qv : List ℚ) (projectId : String) (generate : List Point → String)
    (filenameOf : String → String)
    (hp : cfg.policy = .strict_rag_only)
    (hins : contextSufficient cfg qv
      (searchAlias vs qv projectId cfg.topK) = false) :
    ask vs cfg qv projectId generate filenameOf =
      .ok { answer := refusalAnswer, citations := [],
            answer_mode := "refusal" } := by
  rw [ask, if_pos ⟨hp, hins⟩]

/-- Witness for C7: a strict-policy query against an empty collection. -/
theorem ask_strict_insufficient_refuses_witness :
    ask { collections := fun _ => [], aliasTarget := "documents_chunks_active" }
        { policy := .strict_rag_only, threshold := 1 / 2, topK := 5 }
        [1] "proj-1" (fun _ => "llm answer") (fun _ => "file.md") =
      .ok { answer := refusalAnswer, citations := [],
            answer_mode := "refusal" } :=
  ask_strict_insufficient_refuses _ _ _ _ _ _ rfl rfl

/-- An example scheduler record whose last daily run is day 100. -/
def exSched : SchedulerSt := { lastMidnightRunLocalDate := some 100 }

/-- An example queue with one queued job awaiting the daily sweep. -/
def exQueueQueued : QueueSt :=
  { jobs := [{ id := 1, document_id := "doc-1", status := .queued }],
    nextId := 2 }

/-- C8: when the daily window elapsed while the process was down, the
restart path dispatches every queued job — none is left `queued`, and
each previously queued job reappears as `dispatched`. -/
theorem scheduler_restart_dispatches_backlog (q : QueueSt)
    (sched : SchedulerSt) (today d : Nat)
    (hlast : sched.lastMidnightRunLocalDate = some d) (hmiss : d < today) :
    ((schedulerRestart q sched today).1.jobs.countP
        (fun j => j.status = JobStatus.queued)) = 0
    ∧ ∀ j ∈ q.jobs, j.status = .queued →
        { j with status := JobStatus.dispatched } ∈
          (schedulerRestart q sched today).1.jobs := by
  have hdet : missedRunDetected sched today = true := by
    unfold missedRunDetected
    rw [hlast]
    exact decide_eq_true hmiss
  unfold schedulerRestart
  rw [if_pos hdet]
  constructor
  · unfold dispatchAllQueued
    rw [List.countP_eq_zero]
    intro j' hj'
    obtain ⟨j, hj, rfl⟩ := List.mem_map.mp hj'
    by_cases hq : j.status = JobStatus.queued
    · rw [if_pos hq]
      simp
    · rw [if_neg hq]
      simp [hq]
  · intro j hj hq
    unfold dispatchAllQueued
    refine List.mem_map.mpr ⟨j, hj, ?_⟩
    rw [if_pos hq]

/-- Witness for C8: a restart on day 101 after the last sweep ran on
day 100 with one job queued. -/
theorem scheduler_restart_dispatches_backlog_witness :
    ((schedulerRestart exQueueQueued exSched 101).1.jobs.countP
        (fun j => j.status = JobStatus.queued)) = 0
    ∧ ∀ j ∈ exQueueQueued.jobs, j.status = .queued →
        { j with status := JobStatus.dispatched } ∈
          (schedulerRestart exQueueQueued exSched 101).1.jobs :=
  scheduler_restart_dispatches_backlog exQueueQueued exSched 101 100 rfl
    (by decide)

lemma countP_map_le {α : Type} (f : α → α) (p q : α → Bool)
    (h : ∀ a, p (f a) = true → q a = true) (l : List α) :
    (l.map f).countP p ≤ l.countP q := by
  induction l with
  | nil => simp
  | cons x xs ih =>
      simp only [List.map_cons, List.countP_cons]
      by_cases hfx : p (f x) = true
      · have hqx := h x hfx
        rw [if_pos hfx, if_pos hqx]
        omega
      · rw [if_neg hfx]
        split <;> omega

lemma activeCount_transition_le (s : QueueSt) (jid : Nat)
    (src dst : JobStatus)
    (hterm : dst.isTerminal = false → src.isTerminal = false)
    (doc : String) :
    activeCount (transitionJob s jid src dst) doc ≤ activeCount s doc := by
  unfold activeCount transitionJob
  apply countP_map_le
  intro j hj
  by_cases hg : j.id = jid ∧ j.status = src
  · rw [if_pos hg] at hj
    unfold activeFor at hj ⊢
    simp only [Bool.and_eq_true, Bool.not_eq_true', decide_eq_true_eq]
      at hj ⊢
    exact ⟨hj.1, by rw [hg.2]; exact hterm hj.2⟩
  · rw [if_neg hg] at hj
    exact hj

lemma activeCount_sweep_le (s : QueueSt) (doc : String) :
    activeCount (dispatchAllQueued s) doc ≤ activeCount s doc := by
  unfold activeCount dispatchAllQueued
  apply countP_map_le
  intro j hj
  by_cases hq : j.status = JobStatus.queued
  · rw [if_pos hq] at hj
    unfold activeFor at hj ⊢
    simp only [Bool.and_eq_true, Bool.not_eq_true', decide_eq_true_eq]
      at hj ⊢
    exact ⟨hj.1, by rw [hq]; rfl⟩
  · rw [if_neg hq] at hj
    exact hj

lemma activeCount_eq_zero_of_not_active (s : QueueSt) (doc : String)
    (h : hasActiveJob s doc = false) : activeCount s doc = 0 := by
  unfold hasActiveJob at h
  unfold activeCount
  rw [List.countP_eq_zero]
  intro a ha hpa
  have hany : s.jobs.any (activeFor doc) = true :=
    List.any_eq_true.mpr ⟨a, ha, hpa⟩
  rw [h] at hany
  exact Bool.noConfusion hany

lemma docExclusive_enqueue (s : QueueSt) (doc : String)
    (hs : docExclusive s) : docExclusive (enqueueJob s doc) := by
  intro d
  unfold enqueueJob
  by_cases hact : hasActiveJob s doc = true
  · rw [if_pos hact]
    exact hs d
  · rw [if_neg hact]
    have hfalse : hasActiveJob s doc = false := by
      cases h2 : hasActiveJob s doc
      · rfl
      · exact absurd h2 hact
    unfold activeCount
    rw [List.countP_append]
    have h0 := hs d
    unfold activeCount at h0
    by_cases hd : d = doc
    · subst hd
      have hz := activeCount_eq_zero_of_not_active s d hfalse
      unfold activeCount at hz
      rw [hz]
      simp only [List.countP_cons, List.countP_nil]
      split <;> omega
    · have hnj : activeFor d
          { id := s.nextId, document_id := doc, status := JobStatus.queued }
            = false := by
        unfold activeFor
        simp only [Bool.and_eq_false_iff]
        left
        exact decide_eq_false fun hc => hd hc.symm
      simp only [List.countP_cons, List.countP_nil, hnj]
      simp only [Bool.false_eq_true, if_false]
      omega

lemma docExclusive_dispatch (s : QueueSt) (jid : Nat)
    (hs : docExclusive s) : docExclusive (dispatchJob s jid) := by
  intro d
  unfold dispatchJob
  cases hfind : s.jobs.find?
      (fun j' => j'.id = jid && j'.status = JobStatus.queued) with
  | none => exact hs d
  | some j =>
      show activeCount
          (if hasOtherActive s jid j.document_id = true then s
            else transitionJob s jid JobStatus.queued JobStatus.dispatched)
          d ≤ 1
      by_cases hconf : hasOtherActive s jid j.document_id = true
      · rw [if_pos hconf]
        exact hs d
      · rw [if_neg hconf]
        exact le_trans
          (activeCount_transition_le s jid JobStatus.queued
            JobStatus.dispatched (fun _ => rfl) d) (hs d)

/-- C3: every state reachable by the job engine keeps at most one
non-terminal ProcessingJob per document, and the exclusion is re-checked
at dispatch time — a dispatch whose target document has another active
job is rejected unchanged. -/
theorem at_most_one_active_job :
    (∀ s, QReach s → docExclusive s)
    ∧ ∀ s jid j,
        s.jobs.find? (fun j' => j'.id = jid && j'.status = JobStatus.queued)
            = some j →
        hasOtherActive s jid j.document_id = true →
        dispatchJob s jid = s := by
  constructor
  · intro s hs
    induction hs with
    | init =>
        intro d
        simp [activeCount]
    | step hr hstep ih =>
        cases hstep with
        | enqueue doc => exact docExclusive_enqueue _ doc ih
        | dispatch jid => exact docExclusive_dispatch _ jid ih
        | sweep =>
            intro d
            exact le_trans (activeCount_sweep_le _ d) (ih d)
        | start jid =>
            intro d
            exact le_trans
              (activeCount_transition_le _ jid JobStatus.dispatched
                JobStatus.running (fun _ => rfl) d) (ih d)
        | succeed jid =>
            intro d
            exact le_trans
              (activeCount_transition_le _ jid JobStatus.running
                JobStatus.succeeded (fun hc => Bool.noConfusion hc) d) (ih d)
        | fail jid =>
            intro d
            exact le_trans
              (activeCount_transition_le _ jid JobStatus.running
                JobStatus.failed (fun hc => Bool.noConfusion hc) d) (ih d)
  · intro s jid j hfind hconf
    unfold dispatchJob
    simp only [hfind]
    rw [if_pos hconf]

/-- Witness for C3: two successive enqueues for the same document reach
a state with at most one active job for it. -/
theorem at_most_one_active_job_witness :
    activeCount
      (enqueueJob (enqueueJob { jobs := [], nextId := 0 } "doc-1") "doc-1")
      "doc-1" ≤ 1 :=
  at_most_one_active_job.1 _
    (QReach.step
      (QReach.step QReach.init (QStep.enqueue _ "doc-1"))
      (QStep.enqueue _ "doc-1"))
    "doc-1"

end AIRAGChat
